import Mathlib

/-
Verification of the webpp URI engine (src/core/include/webpp/utils/uri.h).

The development is a shallow embedding of the C++ code:
* the buffer is a `List Char`;
* `std::size_t` values are `Nat`, with the sentinel `std::string_view::npos`
  embedded as the constant `npos = 2 ^ 64 - 1` and size_t wrap-around made
  explicit (`sub64`) at the sites where the C++ can underflow;
* fallible operations return `Option` and the exceptional control flow of the
  setters is an explicit outcome type.

Primitives that uri.h uses but whose definitions live in headers that are not
part of the sources (charset.h, validators/validators.h, casts.h) are modelled
from the spec and carry a doc comment saying so.
-/

namespace Webpp

/-- `std::string_view::npos` on a 64-bit platform. -/
def npos : Nat := 2 ^ 64 - 1

/-- `size_t` subtraction with wrap-around (the C++ arithmetic on offsets is on
`std::size_t`, which wraps modulo `2 ^ 64`); valid for `b ≤ 2 ^ 64`. -/
def sub64 (a b : Nat) : Nat := (2 ^ 64 + a - b) % 2 ^ 64

/-- Modelled from the spec: the `ALPHA` table of charset.h (RFC 3986 ALPHA
production, the ASCII letters); charset.h is not among the sources. -/
def ALPHA (c : Char) : Bool :=
  (65 ≤ c.toNat && c.toNat ≤ 90) || (97 ≤ c.toNat && c.toNat ≤ 122)

/-- Modelled from the spec: the `DIGIT` table of charset.h (RFC 3986 DIGIT
production, the ASCII digits); charset.h is not among the sources. -/
def DIGIT (c : Char) : Bool := 48 ≤ c.toNat && c.toNat ≤ 57

/-- `basic_uri::ALLOWED_CHARACTERS_IN_URI` from uri.h. -/
def ALLOWED_CHARACTERS_IN_URI (c : Char) : Bool :=
  ALPHA c || DIGIT c ||
    [';', ',', '/', '?', ':', '@', '&', '=', '+', '$',
     '-', '_', '.', '!', '~', '*', Char.ofNat 39, '(', ')', '#'].contains c

/-- `basic_uri::SCHEME_NOT_FIRST` from uri.h. -/
def SCHEME_NOT_FIRST (c : Char) : Bool :=
  ALPHA c || DIGIT c || ['+', '-', '.'].contains c

/-- `basic_uri::UNRESERVED` from uri.h. -/
def UNRESERVED (c : Char) : Bool :=
  ALPHA c || DIGIT c || ['-', '.', '_', '~'].contains c

/-- `basic_uri::SUB_DELIMS` from uri.h. -/
def SUB_DELIMS (c : Char) : Bool :=
  ['!', '$', '&', Char.ofNat 39, '(', ')', '*', '+', ',', ';', '='].contains c

/-- `basic_uri::USER_INFO_NOT_PCT_ENCODED` from uri.h. -/
def USER_INFO_NOT_PCT_ENCODED (c : Char) : Bool :=
  UNRESERVED c || SUB_DELIMS c || c == ':'

/-- `basic_uri::REG_NAME_NOT_PCT_ENCODED` from uri.h. -/
def REG_NAME_NOT_PCT_ENCODED (c : Char) : Bool :=
  UNRESERVED c || SUB_DELIMS c

/-- `basic_uri::PCHAR_NOT_PCT_ENCODED` from uri.h. -/
def PCHAR_NOT_PCT_ENCODED (c : Char) : Bool :=
  UNRESERVED c || SUB_DELIMS c || c == ':' || c == '@'

/-- `basic_uri::QUERY_OR_FRAGMENT_NOT_PCT_ENCODED` from uri.h. -/
def QUERY_OR_FRAGMENT_NOT_PCT_ENCODED (c : Char) : Bool :=
  PCHAR_NOT_PCT_ENCODED c || c == '/' || c == '?'

/-- The charset `charset(PCHAR_NOT_PCT_ENCODED, charset('/'))` built inline by
the path getter/setter in uri.h. -/
def PCHAR_OR_SLASH (c : Char) : Bool :=
  PCHAR_NOT_PCT_ENCODED c || c == '/'

/-- The hex-digit classification done inline in `decode_uri_component`
(branches DIGITS, UPPER_HEX, LOWER_HEX of uri.h). -/
def hex_value (c : Char) : Option Nat :=
  if 48 ≤ c.toNat && c.toNat ≤ 57 then some (c.toNat - 48)
  else if 65 ≤ c.toNat && c.toNat ≤ 70 then some (c.toNat - 65 + 10)
  else if 97 ≤ c.toNat && c.toNat ≤ 102 then some (c.toNat - 97 + 10)
  else none

/-- The scanning loop of `decode_uri_component` in uri.h: state variables
`decoding`, `digits_left`, `decoded_char` and accumulator `res` exactly as in
the C++ for-loop; `decoded_char <<= 4` on an `unsigned char` is the explicit
`% 256`.  Reaching the end of the input returns the accumulator even when an
escape is still pending (the loop has no post-check). -/
def decode_loop (allowed : Char → Bool) :
    List Char → Bool → Nat → Nat → List Char → Option (List Char)
  | [], _, _, _, res => some res
  | c :: rest, decoding, digits_left, decoded_char, res =>
    if decoding && decide (digits_left ≠ 0) then
      match hex_value c with
      | none => none
      | some v =>
        let dc := decoded_char * 16 % 256 + v
        let dl := digits_left - 1
        if dl = 0 then decode_loop allowed rest false dl dc (res ++ [Char.ofNat dc])
        else decode_loop allowed rest true dl dc res
    else if c = '%' then decode_loop allowed rest true 2 0 res
    else if allowed c then decode_loop allowed rest decoding digits_left decoded_char (res ++ [c])
    else none

/-- `decode_uri_component` from uri.h. -/
def decode_uri_component (encoded_str : List Char) (allowed_chars : Char → Bool) :
    Option (List Char) :=
  decode_loop allowed_chars encoded_str false 2 0 []

/-- `make_hex_digit` lambda inside `encode_uri_component` in uri.h. -/
def make_hex_digit (value : Nat) : Char :=
  if value < 10 then Char.ofNat (value + 48) else Char.ofNat (value - 10 + 65)

/-- `encode_uri_component` from uri.h; `c >> 4` and `c & 0x0F` on the byte
value of the character. -/
def encode_uri_component (element : List Char) (allowedCharacters : Char → Bool) :
    List Char :=
  element.foldl
    (fun encodedElement c =>
      if allowedCharacters c then encodedElement ++ [c]
      else encodedElement ++
        ['%', make_hex_digit (c.toNat / 16), make_hex_digit (c.toNat % 16)])
    []

/-- Index of the first element satisfying `p`, as an `Option`; the building
block for the `std::string_view` find family. -/
def findIdxA (p : Char → Bool) : List Char → Option Nat
  | [] => none
  | c :: rest => if p c then some 0 else (findIdxA p rest).map (· + 1)

/-- `string_view::find_first_of(c)` / `find(c)`: index of the first occurrence
of `c`, else `npos`. -/
def findFirstOf (s : List Char) (c : Char) : Nat :=
  match findIdxA (fun x => x == c) s with
  | none => npos
  | some i => i

/-- `string_view::find(c, pos)`: first occurrence of `c` at index `≥ pos`,
else `npos`. -/
def findFrom (s : List Char) (c : Char) (pos : Nat) : Nat :=
  match findIdxA (fun x => x == c) (s.drop pos) with
  | none => npos
  | some i => pos + i

/-- `string_view::find_first_not_of(set)`: index of the first character not in
the set, else `npos`. -/
def findFirstNotOf (s : List Char) (set : Char → Bool) : Nat :=
  match findIdxA (fun x => ! set x) s with
  | none => npos
  | some i => i

/-- `string_view::find_last_of(c)`: index of the last occurrence of `c`, else
`npos`. -/
def findLastOf (s : List Char) (c : Char) : Nat :=
  match findIdxA (fun x => x == c) s.reverse with
  | none => npos
  | some i => s.length - 1 - i

/-- `string_view::substr(pos, cnt)`.  (For `pos > size()` the C++ call throws
`std::out_of_range`; that path is never reached in the executions verified
below, and the model returns the empty list there.) -/
def substrSV (s : List Char) (pos cnt : Nat) : List Char :=
  (s.drop pos).take cnt

/-- Modelled from the spec: `is::digit` of validators/validators.h (not among
the sources): the port grammar check, "the candidate is not all digits" /
"the text after it up to authority-end is all digits". -/
def is_digit_str (s : List Char) : Bool := s.all DIGIT

/-- Modelled from the spec: `is::scheme` of validators (declared in uri.h,
defined outside the sources): "the candidate text does not satisfy letter,
then scheme-tail characters" fails. -/
def is_scheme (s : List Char) : Bool :=
  match s with
  | [] => false
  | c :: rest => ALPHA c && rest.all SCHEME_NOT_FIRST

/-- Modelled from the spec: `to_uint` of casts.h (not among the sources):
the numeric value of the explicit port digit string. -/
def to_uint (s : List Char) : Nat :=
  s.foldl (fun a c => a * 10 + (c.toNat - 48)) 0

/-- The state of a `webpp::basic_uri`: the buffer `data` plus the seven
mutable offset fields, each `npos` while unparsed (uri.h lines 237-249). -/
structure basic_uri where
  data : List Char
  scheme_end : Nat
  authority_start : Nat
  user_info_end : Nat
  port_start : Nat
  authority_end : Nat
  query_start : Nat
  fragment_start : Nat
deriving DecidableEq

/-- A `basic_uri` freshly constructed from text (also the state after the
default constructor when `s = []`): every offset unparsed. -/
def mkUri (s : List Char) : basic_uri :=
  ⟨s, npos, npos, npos, npos, npos, npos, npos⟩

/-- `basic_uri::substr(start, len)` from uri.h. -/
def basic_uri.substr (u : basic_uri) (start len : Nat) : List Char :=
  if len = 0 then [] else substrSV u.data start len

/-- `basic_uri::parse_scheme` from uri.h.  Note two faithfully kept quirks of
the source: `__scheme[0]` reads the byte at offset 0 of the buffer (when the
colon is at index 0 the C++ read is out of the empty view; the byte at that
address is the colon itself, never ALPHA), and the result of
`find_first_not_of` is used as a boolean, so only `0` (first tail character
invalid) rejects - `npos` and any positive index accept. -/
def parse_scheme (u : basic_uri) : basic_uri :=
  if u.scheme_end ≠ npos then u
  else
    let _data := u.data
    if _data.take 2 = ['/', '/'] then
      { u with authority_start := 2, scheme_end := _data.length }
    else
      let colon := findFirstOf _data ':'
      if colon ≠ npos then
        let _scheme := _data.take colon
        if ALPHA (_data.headD (Char.ofNat 0)) ∧
            findFirstNotOf (_scheme.drop 1) SCHEME_NOT_FIRST ≠ 0 then
          if substrSV _data (colon + 1) 2 = ['/', '/'] then
            { u with scheme_end := colon, authority_start := colon + 3 }
          else
            { u with scheme_end := colon, authority_start := _data.length }
        else { u with scheme_end := _data.length, authority_start := _data.length }
      else { u with scheme_end := _data.length, authority_start := _data.length }

/-- `basic_uri::parse_fragment` from uri.h. -/
def parse_fragment (u : basic_uri) : basic_uri :=
  if u.fragment_start ≠ npos then u
  else
    let f := findFirstOf u.data '#'
    { u with fragment_start := if f = npos then u.data.length else f }

/-- `basic_uri::parse_query` from uri.h. -/
def parse_query (u : basic_uri) : basic_uri :=
  if u.query_start ≠ npos then u
  else
    let u := parse_fragment u
    let q := findFirstOf (substrSV u.data 0 u.fragment_start) '?'
    { u with query_start := if q = npos then u.data.length else q }

/-- `basic_uri::parse_path` from uri.h (fills `authority_end`). -/
def parse_path (u : basic_uri) : basic_uri :=
  if u.authority_end ≠ npos then u
  else
    let u := parse_scheme u
    let u := parse_query u
    let starting_point :=
      if u.authority_start ≠ u.data.length then u.authority_start
      else if u.scheme_end ≠ u.data.length ∧ u.scheme_end ≠ npos then u.scheme_end
      else 0
    let r := findFirstOf (substrSV u.data starting_point (sub64 u.query_start starting_point)) '/'
    if r = npos then { u with authority_end := u.data.length }
    else { u with authority_end := r + starting_point }

/-- `basic_uri::parse_user_info` from uri.h. -/
def parse_user_info (u : basic_uri) : basic_uri :=
  if u.user_info_end ≠ npos then u
  else
    let u := parse_scheme u
    if u.authority_start = u.data.length then
      { u with user_info_end := u.data.length }
    else
      let u := parse_path u
      let r := findFirstOf
        (substrSV u.data u.authority_start (sub64 u.authority_end u.authority_start)) '@'
      if r = npos then { u with user_info_end := u.data.length }
      else { u with user_info_end := r + u.authority_start }

/-- `basic_uri::parse_port` from uri.h. -/
def parse_port (u : basic_uri) : basic_uri :=
  if u.port_start ≠ npos then u
  else
    let u := parse_user_info u
    if u.authority_start = u.data.length then
      { u with port_start := u.data.length }
    else
      let u := parse_path u
      let starting_point :=
        if u.user_info_end ≠ u.data.length then u.user_info_end else u.authority_start
      let r := findLastOf
        (substrSV u.data starting_point (sub64 u.authority_end starting_point)) ':'
      if r = npos then { u with port_start := u.data.length }
      else
        let ps := r + starting_point
        let str_view := substrSV u.data (ps + 1) (sub64 u.authority_end (ps + 1))
        if is_digit_str str_view then { u with port_start := ps }
        else { u with port_start := u.data.length }

/-- `basic_uri::parse_host` from uri.h: run the prerequisite parses. -/
def parse_host (u : basic_uri) : basic_uri :=
  parse_path (parse_port (parse_user_info u))

/-- `basic_uri::unparse` from uri.h: reset every offset to `npos`. -/
def unparse (u : basic_uri) : basic_uri :=
  { u with scheme_end := npos, authority_start := npos, user_info_end := npos,
           port_start := npos, authority_end := npos, query_start := npos,
           fragment_start := npos }

/-- `basic_uri::replace_value(start, len, replacement)` from uri.h: early
return on the sentinel/no-op guard, otherwise one range splice of the buffer
followed by `unparse()`. -/
def replace_value (u : basic_uri) (start len : Nat) (replacement : List Char) : basic_uri :=
  if start = npos ∨ len = npos ∨ (len = 0 ∧ replacement = []) then u
  else
    unparse
      { u with data :=
          u.substr 0 start ++ replacement ++
            u.substr (min u.data.length (start + len)) npos }

/-- `basic_uri::has_scheme` from uri.h. -/
def has_scheme (u : basic_uri) : Bool :=
  let u := parse_scheme u
  decide (u.scheme_end ≠ u.data.length) || decide (u.scheme_end = 0)

/-- `basic_uri::scheme` (getter) from uri.h. -/
def scheme (u : basic_uri) : List Char :=
  let u := parse_scheme u
  if u.scheme_end = u.data.length then [] else u.substr 0 u.scheme_end

/-- `basic_uri::has_user_info` from uri.h. -/
def has_user_info (u : basic_uri) : Bool :=
  let u := parse_user_info u
  decide (u.user_info_end ≠ u.data.length) && decide (u.authority_start ≠ u.data.length)

/-- `basic_uri::user_info` (getter) from uri.h. -/
def user_info (u : basic_uri) : List Char :=
  let u := parse_user_info u
  if u.user_info_end = u.data.length ∨ u.authority_start = u.data.length then []
  else u.substr u.authority_start (sub64 u.user_info_end u.authority_start)

/-- `basic_uri::host` (getter) from uri.h, with its branch structure for
user-info / port / path presence; in the final branch the length argument is
`data.size() - 1` as in the source. -/
def host (u : basic_uri) : List Char :=
  let u := parse_host u
  if u.authority_start = u.data.length then []
  else
    let start := if u.user_info_end = u.data.length then u.authority_start else u.user_info_end
    let len :=
      if u.port_start ≠ u.data.length then sub64 u.port_start start
      else if u.authority_end ≠ u.data.length then sub64 u.authority_end start
      else sub64 u.data.length 1
    u.substr start len

/-- `basic_uri::has_host` from uri.h. -/
def has_host (u : basic_uri) : Bool := decide (host u ≠ [])

/-- `basic_uri::default_port` from uri.h. -/
def default_port (u : basic_uri) : Nat :=
  let _scheme := scheme u
  if _scheme = ('h' :: 't' :: 't' :: 'p' :: []) then 80
  else if _scheme = ('h' :: 't' :: 't' :: 'p' :: 's' :: []) then 443
  else if _scheme = ('f' :: 't' :: 'p' :: []) then 21
  else if _scheme = ('s' :: 's' :: 'h' :: []) then 22
  else if _scheme = ('t' :: 'e' :: 'l' :: 'n' :: 'e' :: 't' :: []) then 23
  else if _scheme = ('f' :: 't' :: 'p' :: 's' :: []) then 990
  else 0

/-- `basic_uri::port` (getter) from uri.h; the length argument uses
`authority_end - 1` when the authority reaches the end of the buffer, exactly
as in the source. -/
def port (u : basic_uri) : List Char :=
  let u := parse_port u
  if u.port_start = u.data.length then []
  else
    u.substr (u.port_start + 1)
      (sub64 (if u.authority_end = u.data.length then sub64 u.authority_end 1 else u.authority_end)
        (u.port_start + 1))

/-- `basic_uri::has_port` from uri.h. -/
def has_port (u : basic_uri) : Bool :=
  let u := parse_port u
  decide (u.port_start ≠ u.data.length)

/-- `basic_uri::port_uint16` from uri.h; the `static_cast<uint16_t>` is the
explicit `% 65536`. -/
def port_uint16 (u : basic_uri) : Nat :=
  if has_port u then to_uint (port u) % 65536 else default_port u

/-- `basic_uri::has_path` from uri.h. -/
def has_path (u : basic_uri) : Bool :=
  let u := parse_path u
  decide (u.authority_end ≠ u.data.length)

/-- `basic_uri::path` (getter) from uri.h. -/
def path (u : basic_uri) : List Char :=
  let u := parse_path u
  if u.authority_end = u.data.length then []
  else u.substr u.authority_end (sub64 (min u.query_start u.fragment_start) u.authority_end)

/-- `basic_uri::has_query` from uri.h. -/
def has_query (u : basic_uri) : Bool :=
  let u := parse_query u
  decide (u.query_start ≠ u.data.length)

/-- `basic_uri::query` (getter) from uri.h. -/
def query (u : basic_uri) : List Char :=
  let u := parse_query u
  if u.query_start = u.data.length then []
  else u.substr (u.query_start + 1) (sub64 (sub64 u.fragment_start u.query_start) 1)

/-- `basic_uri::has_fragment` from uri.h. -/
def has_fragment (u : basic_uri) : Bool :=
  let u := parse_fragment u
  decide (u.fragment_start ≠ u.data.length)

/-- `basic_uri::fragment` (getter) from uri.h.  (When the fragment is absent
the C++ `substr(fragment_start + 1)` would throw out of a noexcept member;
that path is not exercised here.) -/
def fragment (u : basic_uri) : List Char :=
  let u := parse_fragment u
  u.substr (u.fragment_start + 1) npos

/-- `basic_uri::has_authority` from uri.h. -/
def has_authority (u : basic_uri) : Bool :=
  has_host u || has_user_info u || has_port u

/-- `basic_uri::is_valid` from uri.h. -/
def is_valid (u : basic_uri) : Bool :=
  has_scheme u || has_authority u || has_path u || has_fragment u

/-- `basic_uri::normalize_path` from uri.h: documented as applying the RFC
3986 remove_dot_segments routine, but the body is a bare `return *this` with
a TODO - the identity. -/
def normalize_path (u : basic_uri) : basic_uri := u

/-- `std::map<std::string, std::string>::operator[] = value`: replace the
value when the key is present, otherwise add the entry. -/
def mapInsert (m : List (List Char × List Char)) (k v : List Char) :
    List (List Char × List Char) :=
  match m with
  | [] => [(k, v)]
  | (k0, v0) :: rest => if k0 = k then (k0, v) :: rest else (k0, v0) :: mapInsert rest k v

/-- Model of `_query.find("=", pos, n)` in `query_structured`.  `n = 1` is an
ordinary character search; for `n = 0` the C++ returns `pos` when in range;
for `n ≥ 2` the call compares `n` bytes starting at the one-byte literal `=`
(reading past it - undefined behaviour in the source).  In every execution
verified here `n` is `npos - pos`, far larger than the haystack, and the
C++ library returns `npos` without reading the needle; the model does the
same for every `n ≥ 2`. -/
def findStrEq (q : List Char) (pos n : Nat) : Nat :=
  if n = 0 then (if pos ≤ q.length then pos else npos)
  else if n = 1 then findFrom q '=' pos
  else npos

/-- The do-while loop of `basic_uri::query_structured` (uri.h lines
1594-1623), made structurally recursive with fuel.  A fuel of
`query.length + 2` is enough for every terminating execution; on a query
containing `&` the C++ loop re-finds the same separator forever (`find('&',
last_and_sep)` with `last_and_sep` sitting on the separator), so the fuel
only cuts executions the source never finishes.  `substr(eq_sep + 1, and_sep)`
wraps on `size_t`, hence the `% 2 ^ 64`. -/
def query_structured_loop (q : List Char) :
    Nat → Nat → List (List Char × List Char) → List (List Char × List Char)
  | 0, _, acc => acc
  | fuel + 1, last_and_sep, acc =>
    let and_sep := findFrom q '&' last_and_sep
    let eq_sep := findStrEq q last_and_sep (sub64 and_sep last_and_sep)
    let name := substrSV q (last_and_sep + 1) (min eq_sep and_sep)
    if name = [] then
      (if and_sep ≠ npos then query_structured_loop q fuel and_sep acc else acc)
    else
      let value := if and_sep ≠ npos then substrSV q ((eq_sep + 1) % 2 ^ 64) and_sep else []
      let acc2 :=
        match decode_uri_component name QUERY_OR_FRAGMENT_NOT_PCT_ENCODED with
        | none => acc
        | some d_name =>
          mapInsert acc d_name
            ((decode_uri_component value QUERY_OR_FRAGMENT_NOT_PCT_ENCODED).getD [])
      if and_sep ≠ npos then query_structured_loop q fuel and_sep acc2 else acc2

/-- `basic_uri::query_structured` from uri.h. -/
def query_structured (u : basic_uri) : List (List Char × List Char) :=
  let _query := query u
  query_structured_loop _query (_query.length + 2) 0 []

/-- Outcome of a mutating member call: normal return with the new state, an
exception propagated to the caller (`std::invalid_argument` from a
non-noexcept member), or `std::terminate` (a throw escaping a `noexcept`
member). -/
inductive set_outcome where
  | ok (u : basic_uri)
  | thrown
  | terminated
deriving DecidableEq

/-- `basic_uri& basic_uri::scheme(std::string_view)` (setter) from uri.h.
The member is not `noexcept`, so the `throw std::invalid_argument` on an
invalid candidate propagates to the caller before any state is touched. -/
def scheme_set (u : basic_uri) (s : List Char) : set_outcome :=
  let s := if s.getLast? = some ':' then s.dropLast else s
  if ¬ is_scheme s then set_outcome.thrown
  else
    let u := parse_scheme u
    if u.scheme_end ≠ u.data.length then
      set_outcome.ok (replace_value u 0
        (if s = [] ∧ u.scheme_end + 1 < u.data.length ∧ u.data.get? u.scheme_end = some ':'
         then u.scheme_end + 1 else u.scheme_end) s)
    else
      let scheme_colon := if s = [] then [] else s ++ [':']
      if u.authority_start ≠ u.data.length then
        set_outcome.ok (replace_value u 0 0
          (scheme_colon ++ (if u.data.take 2 = ['/', '/'] then [] else ['/', '/'])))
      else
        set_outcome.ok (replace_value u 0 0 scheme_colon)

/-- `basic_uri& basic_uri::port(std::string_view)` (setter) from uri.h.  This
member IS declared `noexcept`, so its `throw std::invalid_argument` on a
non-digit candidate calls `std::terminate`. -/
def port_set (u : basic_uri) (new_port : List Char) : set_outcome :=
  let new_port := if new_port.head? = some ':' then new_port.drop 1 else new_port
  if ¬ is_digit_str new_port then set_outcome.terminated
  else
    let u := parse_port u
    if u.port_start = u.data.length then
      let u := parse_host u
      if u.authority_end ≠ u.data.length then
        set_outcome.ok (replace_value u u.authority_end 0 (':' :: new_port))
      else if u.user_info_end ≠ u.data.length then
        set_outcome.ok (replace_value u (u.user_info_end + 1) (u.user_info_end + 1) (':' :: new_port))
      else if u.authority_start ≠ u.data.length then
        set_outcome.ok (replace_value u (u.authority_start + 1) 0 (':' :: new_port))
      else if u.scheme_end = u.data.length then
        set_outcome.ok (replace_value u 0 0 ('/' :: '/' :: ':' :: new_port))
      else
        set_outcome.ok (replace_value u (u.scheme_end + 1) 0 ('/' :: '/' :: ':' :: new_port))
    else
      set_outcome.ok (replace_value u (u.port_start + 1)
        (if u.authority_end = u.data.length then sub64 u.authority_end 1 else u.authority_end)
        new_port)

/-- `basic_uri& basic_uri::path(std::string_view)` (setter) from uri.h. -/
def path_set (u : basic_uri) (p : List Char) : basic_uri :=
  let u := parse_path u
  let _encoded_path :=
    (if p.head? = some '/' then [] else ['/']) ++ encode_uri_component p PCHAR_OR_SLASH
  replace_value u u.authority_end (sub64 u.query_start u.authority_end) _encoded_path

/-- The worked example of the spec (the RFC 3986 figure reproduced in uri.h's
class comment). -/
def exampleUri : List Char := ("foo://example.com:8042/over/there?name=ferret#nose").toList

/-- The base URI used for the mutation-invalidation scenario of claim C9. -/
def mutUri : List Char := ("http://example.com/old?q=1").toList

theorem sub64_eq_sub (a b : Nat) (h : b ≤ a) (h2 : a - b < 2 ^ 64) :
    sub64 a b = a - b := by
  unfold sub64
  have h3 : 2 ^ 64 + a - b = 2 ^ 64 + (a - b) := by omega
  rw [h3, Nat.add_mod_left, Nat.mod_eq_of_lt h2]

theorem findIdxA_lt_length {p : Char → Bool} :
    ∀ {s : List Char} {i : Nat}, findIdxA p s = some i → i < s.length := by
  intro s
  induction s with
  | nil => intro i h; simp [findIdxA] at h
  | cons c rest ih =>
    intro i h
    by_cases hc : p c
    · simp only [findIdxA, hc, if_pos, Option.some.injEq] at h
      simp only [List.length_cons]
      omega
    · simp only [findIdxA, hc, if_neg] at h
      cases hr : findIdxA p rest with
      | none => rw [hr] at h; exact absurd h (by simp)
      | some j =>
        rw [hr] at h
        simp only [Option.map_some', Option.some.injEq] at h
        have hji : j + 1 = i := by simpa using h
        have := ih hr
        simp only [List.length_cons]
        omega

theorem findFirstOf_lt {s : List Char} {c : Char}
    (h : findFirstOf s c ≠ npos) : findFirstOf s c < s.length := by
  unfold findFirstOf at *
  cases hf : findIdxA (fun x => x == c) s with
  | none => rw [hf] at h; exact absurd rfl h
  | some i => exact findIdxA_lt_length hf

theorem findLastOf_lt {s : List Char} {c : Char}
    (h : findLastOf s c ≠ npos) : findLastOf s c < s.length := by
  unfold findLastOf at *
  cases hf : findIdxA (fun x => x == c) s.reverse with
  | none => rw [hf] at h; exact absurd rfl h
  | some i =>
    have hi := findIdxA_lt_length hf
    rw [List.length_reverse] at hi
    show s.length - 1 - i < s.length
    omega

theorem substrSV_length_le (s : List Char) (pos cnt : Nat) :
    (substrSV s pos cnt).length ≤ s.length - pos := by
  unfold substrSV
  simp [List.length_take, List.length_drop]

/-- A find inside a substring piece, translated back to an absolute index,
stays inside the buffer. -/
theorem findFirstOf_substr_lt {s : List Char} {pos cnt : Nat} {c : Char}
    (h : findFirstOf (substrSV s pos cnt) c ≠ npos) :
    findFirstOf (substrSV s pos cnt) c + pos < s.length := by
  have h1 := findFirstOf_lt h
  have h2 := substrSV_length_le s pos cnt
  omega

theorem findLastOf_substr_lt {s : List Char} {pos cnt : Nat} {c : Char}
    (h : findLastOf (substrSV s pos cnt) c ≠ npos) :
    findLastOf (substrSV s pos cnt) c + pos < s.length := by
  have h1 := findLastOf_lt h
  have h2 := substrSV_length_le s pos cnt
  omega

/-- Claim C1: on `"foo://example.com:8042/over/there?name=ferret#nose"` the
accessors return scheme `foo`, host `example.com`, port `8042`, path
`/over/there` and fragment `nose` as claimed, but `query_structured()` does
NOT return the single-entry map sending `name` to `ferret`: the loop reads
the name from `substr(last_and_sep + 1, ...)` although no separator precedes
the first pair, so the leading `n` is dropped, the `=` split never happens
(the `find` call is handed the count `npos - last_and_sep`), and the result
is the single entry with key `ame=ferret` and empty value. -/
theorem claim_C1 :
    scheme (mkUri exampleUri) = ("foo").toList ∧
    host (mkUri exampleUri) = ("example.com").toList ∧
    port (mkUri exampleUri) = ("8042").toList ∧
    path (mkUri exampleUri) = ("/over/there").toList ∧
    fragment (mkUri exampleUri) = ("nose").toList ∧
    query_structured (mkUri exampleUri) = [((("ame=ferret").toList), [])] ∧
    query_structured (mkUri exampleUri) ≠ [((("name").toList), (("ferret").toList))] := by
  refine ⟨rfl, rfl, rfl, rfl, rfl, rfl, by decide⟩

/-- Claim C2, counterexample: decoding the truncated escape `"%2"` does not
fail - the pending escape is silently discarded and the decode returns the
(empty) successfully decoded prefix, so the result is `some ""`, not none. -/
theorem claim_C2_counterexample :
    decode_uri_component (("%2").toList) ALLOWED_CHARACTERS_IN_URI = some [] ∧
    decode_uri_component (("%2").toList) ALLOWED_CHARACTERS_IN_URI ≠ none := by
  exact ⟨rfl, by decide⟩

/-- Claim C3, counterexample: on the spec's own example URI all seven offsets
resolve, yet the claimed chain fails: the user info is absent, so
`user_info_end` is the buffer length 50, while the present port gives
`port_start = 17`, and `50 ≤ 17` is false. -/
theorem claim_C3_counterexample :
    (parse_host (mkUri exampleUri)).scheme_end ≠ npos ∧
    (parse_host (mkUri exampleUri)).authority_start ≠ npos ∧
    (parse_host (mkUri exampleUri)).user_info_end ≠ npos ∧
    (parse_host (mkUri exampleUri)).port_start ≠ npos ∧
    (parse_host (mkUri exampleUri)).authority_end ≠ npos ∧
    (parse_host (mkUri exampleUri)).query_start ≠ npos ∧
    (parse_host (mkUri exampleUri)).fragment_start ≠ npos ∧
    (parse_host (mkUri exampleUri)).user_info_end = 50 ∧
    (parse_host (mkUri exampleUri)).port_start = 17 ∧
    ¬ ((parse_host (mkUri exampleUri)).user_info_end ≤ (parse_host (mkUri exampleUri)).port_start) := by
  decide

/-- Claim C4: resolution cannot perform the RFC 3986 remove-dot-segments
step, because `normalize_path()` is an unimplemented stub (a bare
`return *this` under a TODO): it is the identity on every URI, and the path
`/b/c/../g` of a URI passes through it unchanged instead of becoming `/b/g`.
(The `resolve` member itself refers to the nonexistent members `_query` and
`_path` of the reference and calls a fragment setter that does not exist, so
it does not even compile when instantiated.) -/
theorem claim_C4 :
    normalize_path = (fun u : basic_uri => u) ∧
    path (normalize_path (mkUri (("http://a/b/c/../g").toList))) = ("/b/c/../g").toList := by
  exact ⟨rfl, rfl⟩

/-- Claim C6: the scheme grammar check is broken.  `parse_scheme` tests
`__scheme.substr(1).find_first_not_of(SCHEME_NOT_FIRST)` as a boolean, so a
candidate is rejected only when its SECOND character is invalid; for
`"ht!p:x"` the offending `!` sits at index 2, the find returns 1 (truthy),
and `"ht!p"` is accepted as the scheme (`scheme_end = 4`) although `!` is not
a SCHEME_NOT_FIRST character - contradicting the claim that such candidates
are not accepted. -/
theorem claim_C6 :
    (parse_scheme (mkUri (("ht!p:x").toList))).scheme_end = 4 ∧
    scheme (mkUri (("ht!p:x").toList)) = ("ht!p").toList ∧
    SCHEME_NOT_FIRST (Char.ofNat 33) = false ∧
    (parse_scheme (mkUri (("h!tp:x").toList))).scheme_end = 6 := by
  exact ⟨rfl, rfl, rfl, rfl⟩

/-- Claim C7: the port derivation and the default-port table behave as
claimed, but `port()` does not return the complete digit string when no path
follows: for `"http://example.com:8080"` the getter passes
`authority_end - 1` as the length and returns `"808"`, dropping the final
digit (`port_uint16` accordingly returns 808); with a trailing `/` the full
`"8080"` is returned. -/
theorem claim_C7 :
    port (mkUri (("http://example.com:8080").toList)) = ("808").toList ∧
    port_uint16 (mkUri (("http://example.com:8080").toList)) = 808 ∧
    port (mkUri (("http://example.com:8080/").toList)) = ("8080").toList ∧
    port_uint16 (mkUri (("http://example.com:8080/").toList)) = 8080 ∧
    has_port (mkUri (("http://example.com/").toList)) = false ∧
    port_uint16 (mkUri (("http://example.com/").toList)) = 80 ∧
    port_uint16 (mkUri (("https://example.com/").toList)) = 443 ∧
    port_uint16 (mkUri (("ftp://example.com/").toList)) = 21 ∧
    port_uint16 (mkUri (("ssh://example.com/").toList)) = 22 ∧
    port_uint16 (mkUri (("telnet://example.com/").toList)) = 23 ∧
    port_uint16 (mkUri (("ftps://example.com/").toList)) = 990 ∧
    port_uint16 (mkUri (("gopher://example.com/").toList)) = 0 := by
  refine ⟨rfl, rfl, rfl, rfl, rfl, rfl, rfl, rfl, rfl, rfl, rfl, rfl⟩

/-- Claim C8: the scheme setter is not `noexcept`, so its throw on an invalid
candidate (here `"1hp"`, which does not start with a letter) is surfaced to
the caller with no state mutated; but the port setter IS declared `noexcept`
while still executing `throw std::invalid_argument` on a non-digit candidate
(here `"80a"`), so that failure calls `std::terminate` - a fatal abort, not a
failed operation surfaced to the caller. -/
theorem claim_C8 :
    port_set (mkUri (("http://a").toList)) (("80a").toList) = set_outcome.terminated ∧
    is_digit_str (("80a").toList) = false ∧
    scheme_set (mkUri (("http://a").toList)) (("1hp").toList) = set_outcome.thrown ∧
    is_scheme (("1hp").toList) = false := by
  exact ⟨rfl, rfl, rfl, rfl⟩

/-- Helper for claim C2: whenever the input contains a percent sign
immediately followed by a non-hex character, the decode loop returns `none`
from every starting state: each loop step either fails outright or recurses
into the rest of the input. -/
theorem decode_loop_malformed (A : Char → Bool) :
    ∀ (s : List Char) (i : Nat) (c2 : Char),
      s.get? i = some '%' → s.get? (i + 1) = some c2 → hex_value c2 = none →
      ∀ (dec : Bool) (dl dc : Nat) (res : List Char),
        decode_loop A s dec dl dc res = none := by
  intro s
  induction s with
  | nil => intro i c2 h1 _ _ _ _ _ _; simp at h1
  | cons c rest ih =>
    intro i c2 h1 h2 h3 dec dl dc res
    cases i with
    | zero =>
      have hc : c = '%' := by simpa using h1
      subst hc
      obtain ⟨t, ht⟩ : ∃ t, rest = c2 :: t := by
        cases rest with
        | nil => simp at h2
        | cons x t => simp at h2; exact ⟨t, by rw [h2]⟩
      subst ht
      show decode_loop A ('%' :: c2 :: t) dec dl dc res = none
      by_cases hb : (dec && decide (dl ≠ 0)) = true
      · simp only [decode_loop]
        rw [if_pos hb]
        have hpm : hex_value '%' = none := rfl
        rw [hpm]
      · simp only [decode_loop]
        rw [if_neg hb]
        rw [if_pos trivial]
        rw [if_pos (show (true && decide ((2 : Nat) ≠ 0)) = true from by decide)]
        rw [h3]
    | succ j =>
      have h1r : rest.get? j = some '%' := by simpa using h1
      have h2r : rest.get? (j + 1) = some c2 := by simpa using h2
      simp only [decode_loop]
      by_cases hb : (dec && decide (dl ≠ 0)) = true
      · rw [if_pos hb]
        cases hv : hex_value c with
        | none => rfl
        | some v =>
          show (if dl - 1 = 0 then _ else _) = none
          split
          · exact ih j c2 h1r h2r h3 _ _ _ _
          · exact ih j c2 h1r h2r h3 _ _ _ _
      · rw [if_neg hb]
        by_cases hp : c = '%'
        · rw [if_pos hp]; exact ih j c2 h1r h2r h3 _ _ _ _
        · rw [if_neg hp]
          by_cases ha : A c = true
          · rw [if_pos ha]; exact ih j c2 h1r h2r h3 _ _ _ _
          · rw [if_neg ha]

/-- Claim C2, amended: for every input and every allowed set, a `%` followed
by a non-hex character anywhere in the input fails the whole decode (`none`,
no partial output); but an escape truncated by the end of the input does NOT
fail: the pending escape is discarded and the decoded prefix is returned, so
`"%2"` decodes to `some ""` and `"A%2"` to the partially decoded `some "A"`. -/
theorem claim_C2 (allowed : Char → Bool) (s : List Char) (i : Nat) (c2 : Char)
    (h1 : s.get? i = some '%') (h2 : s.get? (i + 1) = some c2)
    (h3 : hex_value c2 = none) :
    decode_uri_component s allowed = none ∧
    (∀ A : Char → Bool, decode_uri_component (('%') :: ('2') :: []) A = some []) ∧
    decode_uri_component (("A%2").toList) ALLOWED_CHARACTERS_IN_URI = some (('A') :: []) := by
  refine ⟨decode_loop_malformed allowed s i c2 h1 h2 h3 false 2 0 [], fun A => rfl, rfl⟩

/-- Claim C2, witness: the general theorem applied to the concrete input
`"a%zb"` (the `%` at index 1 is followed by the non-hex `z`). -/
theorem claim_C2_witness :
    decode_uri_component (("a%zb").toList) ALLOWED_CHARACTERS_IN_URI = none ∧
    (∀ A : Char → Bool, decode_uri_component (('%') :: ('2') :: []) A = some []) ∧
    decode_uri_component (("A%2").toList) ALLOWED_CHARACTERS_IN_URI = some (('A') :: []) :=
  claim_C2 ALLOWED_CHARACTERS_IN_URI (("a%zb").toList) 1 'z' (by decide) (by decide) (by decide)

/-- Helper for claim C5: encoding text made only of allowed characters copies
it unchanged. -/
theorem encode_go_allowed (A : Char → Bool) :
    ∀ (s acc : List Char), s.all A = true →
      s.foldl
        (fun encodedElement c =>
          if A c then encodedElement ++ [c]
          else encodedElement ++
            ['%', make_hex_digit (c.toNat / 16), make_hex_digit (c.toNat % 16)])
        acc = acc ++ s := by
  intro s
  induction s with
  | nil => intro acc _; simp
  | cons c rest ih =>
    intro acc h
    simp only [List.all_cons, Bool.and_eq_true] at h
    simp only [List.foldl_cons, h.1, if_true]
    rw [ih (acc ++ [c]) h.2]
    simp

/-- Helper for claim C5: decoding text made only of allowed characters, none
of which is `%`, copies it unchanged. -/
theorem decode_go_allowed (A : Char → Bool) (hp : A ('%') = false) :
    ∀ (s acc : List Char), s.all A = true →
      decode_loop A s false 2 0 acc = some (acc ++ s) := by
  intro s
  induction s with
  | nil => intro acc _; simp [decode_loop]
  | cons c rest ih =>
    intro acc h
    simp only [List.all_cons, Bool.and_eq_true] at h
    have hcp : c ≠ '%' := by
      intro hc; rw [hc, hp] at h; exact absurd h.1 (by simp)
    simp only [decode_loop, Bool.false_and, Bool.false_eq_true, if_false]
    rw [if_neg hcp, if_pos h.1, ih (acc ++ [c]) h.2]
    simp

/-- Claim C5: for every text composed only of `ALLOWED_CHARACTERS_IN_URI`
characters, decoding the encoding returns exactly the original text:
encoding copies every (allowed) character, and since `%` is not in the set
the decode scans it back verbatim. -/
theorem claim_C5 (text : List Char)
    (h : text.all ALLOWED_CHARACTERS_IN_URI = true) :
    decode_uri_component (encode_uri_component text ALLOWED_CHARACTERS_IN_URI)
      ALLOWED_CHARACTERS_IN_URI = some text := by
  have he : encode_uri_component text ALLOWED_CHARACTERS_IN_URI = text := by
    unfold encode_uri_component
    simpa using encode_go_allowed ALLOWED_CHARACTERS_IN_URI text [] h
  rw [he]
  unfold decode_uri_component
  simpa using decode_go_allowed ALLOWED_CHARACTERS_IN_URI (by decide) text [] h

/-- Claim C5, witness: the round-trip theorem applied to the concrete
allowed-only text `"a1-._~:/?#(glob)"`. -/
theorem claim_C5_witness :
    decode_uri_component
      (encode_uri_component (("a1-._~:/?#(glob)").toList) ALLOWED_CHARACTERS_IN_URI)
      ALLOWED_CHARACTERS_IN_URI = some (("a1-._~:/?#(glob)").toList) :=
  claim_C5 (("a1-._~:/?#(glob)").toList) (by decide)

theorem parse_scheme_id (u : basic_uri) (h : u.scheme_end ≠ npos) :
    parse_scheme u = u := by
  unfold parse_scheme; rw [if_pos h]

theorem parse_fragment_id (u : basic_uri) (h : u.fragment_start ≠ npos) :
    parse_fragment u = u := by
  unfold parse_fragment; rw [if_pos h]

theorem parse_query_id (u : basic_uri) (h : u.query_start ≠ npos) :
    parse_query u = u := by
  unfold parse_query; rw [if_pos h]

theorem parse_path_id (u : basic_uri) (h : u.authority_end ≠ npos) :
    parse_path u = u := by
  unfold parse_path; rw [if_pos h]

theorem parse_user_info_id (u : basic_uri) (h : u.user_info_end ≠ npos) :
    parse_user_info u = u := by
  unfold parse_user_info; rw [if_pos h]

theorem parse_port_id (u : basic_uri) (h : u.port_start ≠ npos) :
    parse_port u = u := by
  unfold parse_port; rw [if_pos h]

/-- After `parse_scheme` runs on an unparsed scheme, the two offsets it fills
are at most the buffer length and nothing else changes. -/
theorem parse_scheme_bounds (u : basic_uri) (h : u.scheme_end = npos) :
    (parse_scheme u).data = u.data ∧
    (parse_scheme u).scheme_end ≤ u.data.length ∧
    (parse_scheme u).authority_start ≤ u.data.length ∧
    (parse_scheme u).user_info_end = u.user_info_end ∧
    (parse_scheme u).port_start = u.port_start ∧
    (parse_scheme u).authority_end = u.authority_end ∧
    (parse_scheme u).query_start = u.query_start ∧
    (parse_scheme u).fragment_start = u.fragment_start := by
  have hg : ¬ (u.scheme_end ≠ npos) := by simp [h]
  simp only [parse_scheme, if_neg hg]
  split_ifs with h1 h2 h3 h4
  · have h5 : 2 ≤ u.data.length := by
      have h6 := congrArg List.length h1
      simp only [List.length_take, List.length_cons, List.length_nil] at h6
      omega
    exact ⟨rfl, le_refl _, h5, rfl, rfl, rfl, rfl, rfl⟩
  · have hc := findFirstOf_lt h2
    have h5 : findFirstOf u.data ':' + 3 ≤ u.data.length := by
      have h6 := congrArg List.length h4
      simp only [substrSV, List.length_take, List.length_drop,
        List.length_cons, List.length_nil] at h6
      omega
    refine ⟨rfl, ?_, h5, rfl, rfl, rfl, rfl, rfl⟩
    show findFirstOf u.data ':' ≤ u.data.length
    omega
  · have hc := findFirstOf_lt h2
    refine ⟨rfl, ?_, le_refl _, rfl, rfl, rfl, rfl, rfl⟩
    show findFirstOf u.data ':' ≤ u.data.length
    omega
  · exact ⟨rfl, le_refl _, le_refl _, rfl, rfl, rfl, rfl, rfl⟩
  · exact ⟨rfl, le_refl _, le_refl _, rfl, rfl, rfl, rfl, rfl⟩

/-- After `parse_fragment` runs on an unparsed fragment, the offset it fills
is at most the buffer length and nothing else changes. -/
theorem parse_fragment_bounds (u : basic_uri) (h : u.fragment_start = npos) :
    (parse_fragment u).data = u.data ∧
    (parse_fragment u).fragment_start ≤ u.data.length ∧
    (parse_fragment u).scheme_end = u.scheme_end ∧
    (parse_fragment u).authority_start = u.authority_start ∧
    (parse_fragment u).user_info_end = u.user_info_end ∧
    (parse_fragment u).port_start = u.port_start ∧
    (parse_fragment u).authority_end = u.authority_end ∧
    (parse_fragment u).query_start = u.query_start := by
  have hg : ¬ (u.fragment_start ≠ npos) := by simp [h]
  unfold parse_fragment
  rw [if_neg hg]
  by_cases h1 : findFirstOf u.data '#' = npos
  · simp [h1]
  · have hb := findFirstOf_lt h1
    simp [h1]
    omega

/-- After `parse_query` runs with query and fragment both unparsed, the two
offsets it fills are at most the buffer length and nothing else changes. -/
theorem parse_query_bounds (u : basic_uri) (hq : u.query_start = npos)
    (hf : u.fragment_start = npos) :
    (parse_query u).data = u.data ∧
    (parse_query u).query_start ≤ u.data.length ∧
    (parse_query u).fragment_start ≤ u.data.length ∧
    (parse_query u).scheme_end = u.scheme_end ∧
    (parse_query u).authority_start = u.authority_start ∧
    (parse_query u).user_info_end = u.user_info_end ∧
    (parse_query u).port_start = u.port_start ∧
    (parse_query u).authority_end = u.authority_end := by
  obtain ⟨f1, f2, f3, f4, f5, f6, f7, f8⟩ := parse_fragment_bounds u hf
  have hg : ¬ (u.query_start ≠ npos) := by simp [hq]
  simp only [parse_query, if_neg hg]
  split_ifs with h1
  · exact ⟨f1, by rw [f1], f2, f3, f4, f5, f6, f7⟩
  · have hb := findFirstOf_lt h1
    have hlen := substrSV_length_le (parse_fragment u).data 0 (parse_fragment u).fragment_start
    refine ⟨f1, ?_, f2, f3, f4, f5, f6, f7⟩
    rw [f1] at hb hlen ⊢
    omega

/-- Claim C9: every buffer change goes through `replace_value`, which
performs the single range splice and then `unparse()`s, resetting all seven
offsets to unknown, so subsequent accessors re-derive them from the new
buffer; concretely, setting the path of `http://example.com/old?q=1` to
`/newpath` yields the buffer `http://example.com/newpath?q=1` with every
offset unknown again, a re-read of `host()` still returns `example.com`, and
the re-derived `query_start` has shifted from 22 to 26. -/
theorem claim_C9 :
    (∀ (u : basic_uri) (start len : Nat) (repl : List Char),
        start ≠ npos → len ≠ npos → ¬ (len = 0 ∧ repl = []) →
        (replace_value u start len repl).scheme_end = npos ∧
        (replace_value u start len repl).authority_start = npos ∧
        (replace_value u start len repl).user_info_end = npos ∧
        (replace_value u start len repl).port_start = npos ∧
        (replace_value u start len repl).authority_end = npos ∧
        (replace_value u start len repl).query_start = npos ∧
        (replace_value u start len repl).fragment_start = npos ∧
        (replace_value u start len repl).data =
          u.substr 0 start ++ repl ++ u.substr (min u.data.length (start + len)) npos) ∧
    host (mkUri mutUri) = ("example.com").toList ∧
    (path_set (mkUri mutUri) (("/newpath").toList)).data =
      ("http://example.com/newpath?q=1").toList ∧
    (path_set (mkUri mutUri) (("/newpath").toList)).scheme_end = npos ∧
    (path_set (mkUri mutUri) (("/newpath").toList)).query_start = npos ∧
    host (path_set (mkUri mutUri) (("/newpath").toList)) = ("example.com").toList ∧
    (parse_host (mkUri mutUri)).query_start = 22 ∧
    (parse_host (path_set (mkUri mutUri) (("/newpath").toList))).query_start = 26 := by
  refine ⟨?_, rfl, rfl, rfl, rfl, rfl, rfl, rfl⟩
  intro u start len repl h1 h2 h3
  unfold replace_value
  rw [if_neg (by tauto)]
  exact ⟨rfl, rfl, rfl, rfl, rfl, rfl, rfl, rfl⟩

/-- Claim C9, witness: the reset part of the theorem applied to the concrete
splice that the path mutation performs on the scenario URI. -/
theorem claim_C9_witness :
    (replace_value (mkUri mutUri) 18 4 (("/newpath").toList)).scheme_end = npos ∧
    (replace_value (mkUri mutUri) 18 4 (("/newpath").toList)).authority_start = npos ∧
    (replace_value (mkUri mutUri) 18 4 (("/newpath").toList)).user_info_end = npos ∧
    (replace_value (mkUri mutUri) 18 4 (("/newpath").toList)).port_start = npos ∧
    (replace_value (mkUri mutUri) 18 4 (("/newpath").toList)).authority_end = npos ∧
    (replace_value (mkUri mutUri) 18 4 (("/newpath").toList)).query_start = npos ∧
    (replace_value (mkUri mutUri) 18 4 (("/newpath").toList)).fragment_start = npos ∧
    (replace_value (mkUri mutUri) 18 4 (("/newpath").toList)).data =
      (mkUri mutUri).substr 0 18 ++ (("/newpath").toList) ++
        (mkUri mutUri).substr (min (mkUri mutUri).data.length (18 + 4)) npos :=
  claim_C9.1 (mkUri mutUri) 18 4 (("/newpath").toList)
    (by decide) (by decide) (by decide)

/-- Claim C10: on the empty owning URI (default constructor) the resolved
`scheme_end` is 0, which `has_scheme()`'s `scheme_end == 0` disjunct treats
as a present scheme, so `has_scheme()` and hence `is_valid()` return true. -/
theorem claim_C10 :
    has_scheme (mkUri []) = true ∧
    (parse_scheme (mkUri [])).scheme_end = 0 ∧
    is_valid (mkUri []) = true := by
  exact ⟨rfl, rfl, rfl⟩

theorem ne_npos_of_le {a n : Nat} (h1 : a ≤ n) (h2 : n < npos) : a ≠ npos := by
  omega

/-- After `parse_path` runs with authority-end, query and fragment unparsed
and the scheme already resolved, the offsets it fills are at most the buffer
length and nothing else changes. -/
theorem parse_path_bounds (u : basic_uri) (hae : u.authority_end = npos)
    (hs : u.scheme_end ≠ npos) (hq : u.query_start = npos) (hf : u.fragment_start = npos) :
    (parse_path u).data = u.data ∧
    (parse_path u).authority_end ≤ u.data.length ∧
    (parse_path u).query_start ≤ u.data.length ∧
    (parse_path u).fragment_start ≤ u.data.length ∧
    (parse_path u).scheme_end = u.scheme_end ∧
    (parse_path u).authority_start = u.authority_start ∧
    (parse_path u).user_info_end = u.user_info_end ∧
    (parse_path u).port_start = u.port_start := by
  obtain ⟨q1, q2, q3, q4, q5, q6, q7, q8⟩ := parse_query_bounds u hq hf
  have hg : ¬ (u.authority_end ≠ npos) := by simp [hae]
  simp only [parse_path, if_neg hg, parse_scheme_id u hs]
  split_ifs with h1 h2 h3 h4 h5
  all_goals refine ⟨q1, ?_, q2, q3, q4, q5, q6, q7⟩
  all_goals have hlen : (parse_query u).data.length = u.data.length := by rw [q1]
  · show (parse_query u).data.length ≤ u.data.length
    omega
  · have hb := findFirstOf_substr_lt h2
    show findFirstOf _ '/' + _ ≤ u.data.length
    omega
  · show (parse_query u).data.length ≤ u.data.length
    omega
  · have hb := findFirstOf_substr_lt h4
    show findFirstOf _ '/' + _ ≤ u.data.length
    omega
  · show (parse_query u).data.length ≤ u.data.length
    omega
  · have hb := findFirstOf_substr_lt h5
    show findFirstOf _ '/' + _ ≤ u.data.length
    omega

/-- `parse_user_info` on a state whose scheme is resolved with no authority:
only `user_info_end` is filled, with the buffer length. -/
theorem parse_user_info_no_auth (u : basic_uri) (hui : u.user_info_end = npos)
    (hs : u.scheme_end ≠ npos) (hA : u.authority_start = u.data.length) :
    (parse_user_info u).data = u.data ∧
    (parse_user_info u).user_info_end = u.data.length ∧
    (parse_user_info u).scheme_end = u.scheme_end ∧
    (parse_user_info u).authority_start = u.authority_start ∧
    (parse_user_info u).port_start = u.port_start ∧
    (parse_user_info u).authority_end = u.authority_end ∧
    (parse_user_info u).query_start = u.query_start ∧
    (parse_user_info u).fragment_start = u.fragment_start := by
  have hg : ¬ (u.user_info_end ≠ npos) := by simp [hui]
  simp only [parse_user_info, if_neg hg, parse_scheme_id u hs, if_pos hA]
  simp

/-- `parse_user_info` on a state with an authority and path/query/fragment
unparsed: the offsets it fills are at most the buffer length. -/
theorem parse_user_info_bounds (u : basic_uri) (hui : u.user_info_end = npos)
    (hs : u.scheme_end ≠ npos) (hA : u.authority_start ≠ u.data.length)
    (hae : u.authority_end = npos) (hq : u.query_start = npos)
    (hf : u.fragment_start = npos) :
    (parse_user_info u).data = u.data ∧
    (parse_user_info u).user_info_end ≤ u.data.length ∧
    (parse_user_info u).authority_end ≤ u.data.length ∧
    (parse_user_info u).query_start ≤ u.data.length ∧
    (parse_user_info u).fragment_start ≤ u.data.length ∧
    (parse_user_info u).scheme_end = u.scheme_end ∧
    (parse_user_info u).authority_start = u.authority_start ∧
    (parse_user_info u).port_start = u.port_start := by
  obtain ⟨p1, p2, p3, p4, p5, p6, p7, p8⟩ := parse_path_bounds u hae hs hq hf
  have hg : ¬ (u.user_info_end ≠ npos) := by simp [hui]
  simp only [parse_user_info, if_neg hg, parse_scheme_id u hs, if_neg hA]
  have hlen : (parse_path u).data.length = u.data.length := by rw [p1]
  split_ifs with h1
  · refine ⟨p1, ?_, p2, p3, p4, p5, p6, p8⟩
    show (parse_path u).data.length ≤ u.data.length
    omega
  · refine ⟨p1, ?_, p2, p3, p4, p5, p6, p8⟩
    have hb := findFirstOf_substr_lt h1
    show findFirstOf _ '@' + _ ≤ u.data.length
    omega

/-- `parse_port` on a state with user info resolved and no authority: only
`port_start` is filled, with the buffer length. -/
theorem parse_port_no_auth (u : basic_uri) (hps : u.port_start = npos)
    (hui : u.user_info_end ≠ npos) (hA : u.authority_start = u.data.length) :
    (parse_port u).data = u.data ∧
    (parse_port u).port_start = u.data.length ∧
    (parse_port u).scheme_end = u.scheme_end ∧
    (parse_port u).authority_start = u.authority_start ∧
    (parse_port u).user_info_end = u.user_info_end ∧
    (parse_port u).authority_end = u.authority_end ∧
    (parse_port u).query_start = u.query_start ∧
    (parse_port u).fragment_start = u.fragment_start := by
  have hg : ¬ (u.port_start ≠ npos) := by simp [hps]
  simp only [parse_port, if_neg hg, parse_user_info_id u hui, if_pos hA]
  simp

/-- `parse_port` on a state with an authority and user info and path already
resolved: the offset it fills is at most the buffer length. -/
theorem parse_port_bounds (u : basic_uri) (hps : u.port_start = npos)
    (hui : u.user_info_end ≠ npos) (hA : u.authority_start ≠ u.data.length)
    (hae : u.authority_end ≠ npos) :
    (parse_port u).data = u.data ∧
    (parse_port u).port_start ≤ u.data.length ∧
    (parse_port u).scheme_end = u.scheme_end ∧
    (parse_port u).authority_start = u.authority_start ∧
    (parse_port u).user_info_end = u.user_info_end ∧
    (parse_port u).authority_end = u.authority_end ∧
    (parse_port u).query_start = u.query_start ∧
    (parse_port u).fragment_start = u.fragment_start := by
  have hg : ¬ (u.port_start ≠ npos) := by simp [hps]
  simp only [parse_port, if_neg hg, parse_user_info_id u hui, if_neg hA, parse_path_id u hae]
  split_ifs with h1 h2 h3 h4 h5
  all_goals refine ⟨rfl, ?_, rfl, rfl, rfl, rfl, rfl, rfl⟩
  all_goals first
    | exact le_refl _
    | (show findLastOf _ ':' + _ ≤ u.data.length
       first
         | (have hb := findLastOf_substr_lt h2; omega)
         | (have hb := findLastOf_substr_lt h4; omega))

/-- Running `parse_user_info` is the same as first resolving the scheme and
then running it: the first thing `parse_user_info` does is `parse_scheme`. -/
theorem parse_user_info_after_scheme (u : basic_uri) (hui : u.user_info_end = npos)
    (hs : u.scheme_end = npos) (hn : u.data.length < npos) :
    parse_user_info u = parse_user_info (parse_scheme u) := by
  obtain ⟨s1, s2, s3, s4, s5, s6, s7, s8⟩ := parse_scheme_bounds u hs
  have hg1 : ¬ (u.user_info_end ≠ npos) := by simp [hui]
  have hg2 : ¬ ((parse_scheme u).user_info_end ≠ npos) := by simp [s4, hui]
  have hid : parse_scheme (parse_scheme u) = parse_scheme u :=
    parse_scheme_id _ (ne_npos_of_le s2 hn)
  simp only [parse_user_info, if_neg hg1, if_neg hg2, hid]

/-- The parse chain of `parse_host` applied after the scheme has been
resolved: every offset of the result is at most the buffer length. -/
theorem parse_chain_bounded (X : basic_uri) (hn : X.data.length < npos)
    (hXse_le : X.scheme_end ≤ X.data.length)
    (hXas_le : X.authority_start ≤ X.data.length)
    (hXui : X.user_info_end = npos) (hXps : X.port_start = npos)
    (hXae : X.authority_end = npos) (hXqs : X.query_start = npos)
    (hXfs : X.fragment_start = npos) :
    (parse_path (parse_port (parse_user_info X))).scheme_end ≤ X.data.length ∧
    (parse_path (parse_port (parse_user_info X))).authority_start ≤ X.data.length ∧
    (parse_path (parse_port (parse_user_info X))).user_info_end ≤ X.data.length ∧
    (parse_path (parse_port (parse_user_info X))).port_start ≤ X.data.length ∧
    (parse_path (parse_port (parse_user_info X))).authority_end ≤ X.data.length ∧
    (parse_path (parse_port (parse_user_info X))).query_start ≤ X.data.length ∧
    (parse_path (parse_port (parse_user_info X))).fragment_start ≤ X.data.length := by
  have hXse : X.scheme_end ≠ npos := ne_npos_of_le hXse_le hn
  by_cases hA : X.authority_start = X.data.length
  · -- no authority: user-info and port are filled with the buffer length
    obtain ⟨w1, w2, w3, w4, w5, w6, w7, w8⟩ := parse_user_info_no_auth X hXui hXse hA
    have hWps : (parse_user_info X).port_start = npos := by rw [w5]; exact hXps
    have hWui2 : (parse_user_info X).user_info_end ≠ npos := by rw [w2]; omega
    have hWA : (parse_user_info X).authority_start = (parse_user_info X).data.length := by
      rw [w4, w1, hA]
    obtain ⟨v1, v2, v3, v4, v5, v6, v7, v8⟩ :=
      parse_port_no_auth (parse_user_info X) hWps hWui2 hWA
    have hVae : (parse_port (parse_user_info X)).authority_end = npos := by
      rw [v6, w6]; exact hXae
    have hVse : (parse_port (parse_user_info X)).scheme_end ≠ npos := by
      rw [v3, w3]; exact hXse
    have hVqs : (parse_port (parse_user_info X)).query_start = npos := by
      rw [v7, w7]; exact hXqs
    have hVfs : (parse_port (parse_user_info X)).fragment_start = npos := by
      rw [v8, w8]; exact hXfs
    obtain ⟨p1, p2, p3, p4, p5, p6, p7, p8⟩ :=
      parse_path_bounds (parse_port (parse_user_info X)) hVae hVse hVqs hVfs
    have hVlen : (parse_port (parse_user_info X)).data.length = X.data.length := by
      rw [v1, w1]
    rw [hVlen] at p2 p3 p4
    refine ⟨?_, ?_, ?_, ?_, p2, p3, p4⟩
    · rw [p5, v3, w3]; exact hXse_le
    · rw [p6, v4, w4]; exact hXas_le
    · rw [p7, v5, w2]
    · rw [p8, v2, w1]
  · -- authority present: user info, port, path all resolve inside the buffer
    obtain ⟨w1, w2, w3, w4, w5, w6, w7, w8⟩ :=
      parse_user_info_bounds X hXui hXse hA hXae hXqs hXfs
    have hWui : (parse_user_info X).user_info_end ≠ npos := ne_npos_of_le w2 hn
    have hWae : (parse_user_info X).authority_end ≠ npos := ne_npos_of_le w3 hn
    have hWlen : (parse_user_info X).data.length = X.data.length := by rw [w1]
    obtain ⟨t1, t2, t3, t4, t5, t6, t7, t8⟩ :=
      parse_port_bounds (parse_user_info X)
        (by rw [w8]; exact hXps) hWui
        (by rw [w7]; intro hcon; apply hA; rw [hcon, w1])
        hWae
    rw [hWlen] at t2
    rw [parse_path_id _ (by rw [t6]; exact hWae)]
    refine ⟨?_, ?_, ?_, t2, ?_, ?_, ?_⟩
    · rw [t3, w6]; exact hXse_le
    · rw [t4, w7]; exact hXas_le
    · rw [t5]; exact w2
    · rw [t6]; exact w3
    · rw [t7]; exact w4
    · rw [t8]; exact w5

/-- Claim C3, amended: the claimed seven-way non-decreasing chain is false
(see the counterexample: an absent component is encoded as the buffer length,
which can precede a present one); what does hold for every URI is that once
the parsing functions have resolved all seven offsets, each of them is at
most the buffer length. -/
theorem claim_C3 (s : List Char) (hn : s.length < npos) :
    (parse_host (mkUri s)).scheme_end ≤ s.length ∧
    (parse_host (mkUri s)).authority_start ≤ s.length ∧
    (parse_host (mkUri s)).user_info_end ≤ s.length ∧
    (parse_host (mkUri s)).port_start ≤ s.length ∧
    (parse_host (mkUri s)).authority_end ≤ s.length ∧
    (parse_host (mkUri s)).query_start ≤ s.length ∧
    (parse_host (mkUri s)).fragment_start ≤ s.length := by
  obtain ⟨s1, s2, s3, s4, s5, s6, s7, s8⟩ := parse_scheme_bounds (mkUri s) rfl
  have hdata : (mkUri s).data = s := rfl
  rw [hdata] at s1 s2 s3
  have hXlen : (parse_scheme (mkUri s)).data.length = s.length := by rw [s1]
  have hcom : parse_user_info (mkUri s) = parse_user_info (parse_scheme (mkUri s)) :=
    parse_user_info_after_scheme (mkUri s) rfl rfl (by rw [hdata]; exact hn)
  unfold parse_host
  rw [hcom]
  obtain ⟨c1, c2, c3, c4, c5, c6, c7⟩ := parse_chain_bounded (parse_scheme (mkUri s))
    (by omega) (by omega) (by omega)
    (by rw [s4]; rfl) (by rw [s5]; rfl) (by rw [s6]; rfl) (by rw [s7]; rfl) (by rw [s8]; rfl)
  rw [hXlen] at c1 c2 c3 c4 c5 c6 c7
  exact ⟨c1, c2, c3, c4, c5, c6, c7⟩

/-- Claim C3, witness: the amended bound theorem applied to the spec's
example URI. -/
theorem claim_C3_witness :
    (parse_host (mkUri exampleUri)).scheme_end ≤ exampleUri.length ∧
    (parse_host (mkUri exampleUri)).authority_start ≤ exampleUri.length ∧
    (parse_host (mkUri exampleUri)).user_info_end ≤ exampleUri.length ∧
    (parse_host (mkUri exampleUri)).port_start ≤ exampleUri.length ∧
    (parse_host (mkUri exampleUri)).authority_end ≤ exampleUri.length ∧
    (parse_host (mkUri exampleUri)).query_start ≤ exampleUri.length ∧
    (parse_host (mkUri exampleUri)).fragment_start ≤ exampleUri.length :=
  claim_C3 exampleUri (by decide)

end Webpp
